import Mathlib

/-!
Verification of the expense-tracker query and aggregation core.

The embedding models `src/services.py` (list_expenses, add_expense,
update_expense, delete_expense) and `src/reports.py` (where_builder_category,
where_builder_range, by_category, range_summary) over an explicit database
state.  SQLite `REAL` amounts are modelled as exact rationals; `TEXT` columns
as `String` with SQLite's binary collation modelled by Lean's lexicographic
order on strings; `NULL`able columns as `Option`.  Python `None` arguments are
`Option.none`; Python truthiness of strings (`if text:`) is `≠ ""` on the
`some` case.  `ValueError` raised by `list_expenses` is modelled with
`Except String`.
-/

namespace ExpenseTracker

/-- A persisted row of the `expenses` table (schema in `src/db.py`):
`id INTEGER PRIMARY KEY AUTOINCREMENT, date TEXT NOT NULL, category TEXT NOT
NULL, amount REAL NOT NULL, note TEXT`. -/
structure Row where
  id : Nat
  date : String
  category : String
  amount : ℚ
  note : Option String
deriving DecidableEq

/-- The database state: the rows of `expenses` plus the AUTOINCREMENT
counter that assigns the next fresh `id` (never reused after deletion). -/
structure DB where
  rows : List Row
  nextId : Nat
deriving DecidableEq

/-- A fresh database as produced by `init_db` (`src/db.py`): no rows,
AUTOINCREMENT starts assigning ids from 1. -/
def emptyDB : DB := ⟨[], 1⟩

/-- A positional SQL bind value, as collected in the `parameters` lists of
the Python code. -/
inductive Param where
  | str : String → Param
  | num : ℚ → Param
  | int : Int → Param
  | null : Param
deriving DecidableEq

/-- Binding an optional string argument: Python `None` binds SQL `NULL`. -/
def optStrParam : Option String → Param
  | some s => Param.str s
  | none => Param.null

/-- The wildcard-wrapped LIKE pattern `f"%{text}%"` built by the builders. -/
def likePat (t : String) : String := "%" ++ t ++ "%"

/-- WHERE-clause builder inlined in `services.list_expenses`
(`src/services.py` lines 55-77): starting from empty lists it appends, in
source order, one clause fragment and its bind value(s) per present filter.
`text` is guarded by Python truthiness (`if text:`), so `None` and the empty
string both emit nothing; the other five filters are guarded by
`is not None`. -/
def listExpensesWhere (date_from date_to category : Option String)
    (min_amount max_amount : Option ℚ) (text : Option String) :
    List String × List Param :=
  let s0 : List String × List Param := ([], [])
  let s1 := match date_from with
    | some v => (s0.1 ++ ["date >= ?"], s0.2 ++ [Param.str v])
    | none => s0
  let s2 := match date_to with
    | some v => (s1.1 ++ ["date <= ?"], s1.2 ++ [Param.str v])
    | none => s1
  let s3 := match category with
    | some v => (s2.1 ++ ["category = ?"], s2.2 ++ [Param.str v])
    | none => s2
  let s4 := match min_amount with
    | some v => (s3.1 ++ ["amount >= ?"], s3.2 ++ [Param.num v])
    | none => s3
  let s5 := match max_amount with
    | some v => (s4.1 ++ ["amount <= ?"], s4.2 ++ [Param.num v])
    | none => s4
  match text with
  | some v =>
      if v = "" then s5
      else (s5.1 ++ ["(note LIKE ? OR category LIKE ?)"],
            s5.2 ++ [Param.str (likePat v), Param.str (likePat v)])
  | none => s5

/-- `reports.where_builder_category` (`src/reports.py` lines 7-42): the same
per-filter appends as the listing builder but with no exact-category filter
(`by_category` groups by category instead). -/
def where_builder_category (date_from date_to : Option String)
    (min_amount max_amount : Option ℚ) (text : Option String) :
    List String × List Param :=
  let s0 : List String × List Param := ([], [])
  let s1 := match date_from with
    | some v => (s0.1 ++ ["date >= ?"], s0.2 ++ [Param.str v])
    | none => s0
  let s2 := match date_to with
    | some v => (s1.1 ++ ["date <= ?"], s1.2 ++ [Param.str v])
    | none => s1
  let s3 := match min_amount with
    | some v => (s2.1 ++ ["amount >= ?"], s2.2 ++ [Param.num v])
    | none => s2
  let s4 := match max_amount with
    | some v => (s3.1 ++ ["amount <= ?"], s3.2 ++ [Param.num v])
    | none => s3
  match text with
  | some v =>
      if v = "" then s4
      else (s4.1 ++ ["(note LIKE ? OR category LIKE ?)"],
            s4.2 ++ [Param.str (likePat v), Param.str (likePat v)])
  | none => s4

/-- `reports.where_builder_range` (`src/reports.py` lines 44-80): the lists
start non-empty with the mandatory `date BETWEEN ? AND ?` clause binding both
bounds (SQL `NULL` when unset), then append the optional amount and text
filters exactly like the other builders. -/
def where_builder_range (date_from date_to : Option String)
    (min_amount max_amount : Option ℚ) (text : Option String) :
    List String × List Param :=
  let s0 : List String × List Param :=
    (["date BETWEEN ? AND ?"], [optStrParam date_from, optStrParam date_to])
  let s1 := match min_amount with
    | some v => (s0.1 ++ ["amount >= ?"], s0.2 ++ [Param.num v])
    | none => s0
  let s2 := match max_amount with
    | some v => (s1.1 ++ ["amount <= ?"], s1.2 ++ [Param.num v])
    | none => s1
  match text with
  | some v =>
      if v = "" then s2
      else (s2.1 ++ ["(note LIKE ? OR category LIKE ?)"],
            s2.2 ++ [Param.str (likePat v), Param.str (likePat v)])
  | none => s2

/-- The WHERE suffix appended to the SELECT text: nothing when no fragment
was emitted, otherwise `" WHERE "` followed by the fragments joined with
`" AND "` (`src/services.py` lines 81-82, `src/reports.py` lines 106-107). -/
def whereSuffix (frags : List String) : String :=
  if frags = [] then "" else " WHERE " ++ String.intercalate " AND " frags

/-! ### Semantics of the emitted SQL conditions -/

/-- Lexicographic comparison of character lists, the meaning of SQLite's
default BINARY collation on `TEXT` columns (UTF-8 byte order coincides with
codepoint order).  ISO `YYYY-MM-DD` dates compare chronologically under
it. -/
def listLeChars : List Char → List Char → Bool
  | [], _ => true
  | _ :: _, [] => false
  | a :: as, b :: bs => if a = b then listLeChars as bs else decide (a < b)

/-- `a <= b` on SQLite `TEXT` values. -/
def strLe (a b : String) : Bool := listLeChars a.toList b.toList

/-- Does `pat` occur at the head of `l`? (helper for substring matching). -/
def leadsList : List Char → List Char → Bool
  | [], _ => true
  | _ :: _, [] => false
  | a :: as, b :: bs => a == b && leadsList as bs

/-- Does `pat` occur anywhere in `l`? (helper for substring matching). -/
def occursIn (pat : List Char) : List Char → Bool
  | [] => leadsList pat []
  | c :: cs => leadsList pat (c :: cs) || occursIn pat cs

/-- The meaning of SQLite `col LIKE '%t%'`: substring containment,
case-insensitive in SQLite's default LIKE semantics (modelled with
`Char.toLower`). -/
def likeContains (t s : String) : Bool :=
  occursIn (t.toList.map Char.toLower) (s.toList.map Char.toLower)

/-- An absent filter contributes no condition (vacuously true); a present
one imposes its fragment's condition. -/
def optGuard {α : Type} (o : Option α) (f : α → Bool) : Bool :=
  match o with | some v => f v | none => true

/-- `note LIKE ?` on a `NULL` note is SQL-`NULL`, hence not a match. -/
def noteHas (v : String) : Option String → Bool
  | some n => likeContains v n
  | none => false

/-- The condition of the text fragment
`(note LIKE ? OR category LIKE ?)`; like the builders it treats empty text
as absent (Python truthiness). -/
def textGuard (t : Option String) (r : Row) : Bool :=
  match t with
  | some v =>
      if v = "" then true
      else (noteHas v r.note || likeContains v r.category)
  | none => true

/-- Row satisfaction of the condition emitted by the listing builder: the
fragments are joined with SQL `AND`, an absent filter contributes no
condition. -/
def matchesListFilters (date_from date_to category : Option String)
    (min_amount max_amount : Option ℚ) (text : Option String) (r : Row) :
    Bool :=
  optGuard date_from (fun v => strLe v r.date) &&
  optGuard date_to (fun v => strLe r.date v) &&
  optGuard category (fun v => r.category == v) &&
  optGuard min_amount (fun v => decide (v ≤ r.amount)) &&
  optGuard max_amount (fun v => decide (r.amount ≤ v)) &&
  textGuard text r

/-- Row satisfaction of `where_builder_category` output: the listing
condition without the exact-category fragment. -/
def matchesCatFilters (date_from date_to : Option String)
    (min_amount max_amount : Option ℚ) (text : Option String) (r : Row) :
    Bool :=
  matchesListFilters date_from date_to none min_amount max_amount text r

/-- Row satisfaction of `where_builder_range` output.  `date BETWEEN ? AND ?`
with a `NULL` bound is SQL-`NULL` or false, hence never a match, so any
absent bound matches no row. -/
def matchesRangeFilters (date_from date_to : Option String)
    (min_amount max_amount : Option ℚ) (text : Option String) (r : Row) :
    Bool :=
  (match date_from, date_to with
   | some a, some b => strLe a r.date && strLe r.date b
   | _, _ => false) &&
  optGuard min_amount (fun v => decide (v ≤ r.amount)) &&
  optGuard max_amount (fun v => decide (r.amount ≤ v)) &&
  textGuard text r

/-! ### Record query service: `services.list_expenses` -/

/-- The argument record of `list_expenses`, every keyword argument of the
Python function except the connection. -/
structure ListArgs where
  date_from : Option String
  date_to : Option String
  category : Option String
  min_amount : Option ℚ
  max_amount : Option ℚ
  text : Option String
  order_by : Option String
  desc : Bool
  limit : Option Int
  offset : Option Int
deriving DecidableEq

/-- All-default arguments: no filters, no ordering, no pagination. -/
def noArgs : ListArgs :=
  ⟨none, none, none, none, none, none, none, false, none, none⟩

/-- `VALID_ORDER_BY = {"amount", "date", "category", "id"}`
(`src/services.py` line 7). -/
def VALID_ORDER_BY : List String := ["amount", "date", "category", "id"]

/-- The guard `if order_by:` then `if order_by not in VALID_ORDER_BY: raise`:
true exactly when `order_by` is truthy (present and non-empty) and not a
recognized sort key. -/
def orderByBad (o : Option String) : Bool :=
  match o with
  | some k => !(k == "") && !(VALID_ORDER_BY.contains k)
  | none => false

/-- Ascending comparison of two rows on one of the four recognized sort
keys; the catch-all branch is only reached for `"id"` since the caller
validates against `VALID_ORDER_BY`. -/
def cmpKeyB (k : String) (r s : Row) : Bool :=
  if k = "amount" then decide (r.amount ≤ s.amount)
  else if k = "date" then strLe r.date s.date
  else if k = "category" then strLe r.category s.category
  else decide (r.id ≤ s.id)

/-- The ORDER BY comparison: `DESC` flips the ascending comparison. -/
def cmpB (k : String) (desc : Bool) (r s : Row) : Bool :=
  if desc then cmpKeyB k s r else cmpKeyB k r s

/-- The effect of the optional `ORDER BY {order_by} {ASC|DESC}` clause: rows
are sorted by the requested key and direction when `order_by` is truthy, left
in table order otherwise.  SQLite does not fix the order of ties; the model
chooses the stable insertion sort. -/
def orderRows (a : ListArgs) (rows : List Row) : List Row :=
  match a.order_by with
  | some k =>
      if k = "" then rows
      else rows.insertionSort (fun r s => cmpB k a.desc r s = true)
  | none => rows

/-- The effect of the `LIMIT ?` / `OFFSET ?` suffixes: `OFFSET` is only ever
emitted when `LIMIT` is (`src/services.py` lines 89-98). -/
def paginate (limit offset : Option Int) (rows : List Row) : List Row :=
  match limit with
  | none => rows
  | some l =>
      match offset with
      | none => rows.take l.toNat
      | some o => (rows.drop o.toNat).take l.toNat

/-- The guard `if not isinstance(limit, int) or limit <= 0: raise`, reached
only when `limit is not None`. -/
def limitBad (l : Option Int) : Bool :=
  match l with | some v => decide (v ≤ 0) | none => false

/-- The guard `if not isinstance(offset, int) or offset < 0: raise`: the
Python code only reaches it inside the `if limit is not None` block and the
`if offset is not None` check, so an offset given without a limit is never
validated (nor applied). -/
def offsetBad (l o : Option Int) : Bool :=
  match l, o with | some _, some v => decide (v < 0) | _, _ => false

/-- `services.list_expenses`: validates `order_by`, then `limit`, then —
only when `limit` is present — `offset`, mirroring the Python control flow
where each `raise ValueError` happens while the SQL text is being built,
before `cursor.execute`; then filters, orders and paginates the stored
rows. -/
def list_expenses (db : DB) (a : ListArgs) : Except String (List Row) :=
  if orderByBad a.order_by then
    Except.error "Invalid order_by"
  else if limitBad a.limit then
    Except.error "limit must be a positive integer."
  else if offsetBad a.limit a.offset then
    Except.error "offset must be an non negative integer."
  else
    Except.ok (paginate a.limit a.offset (orderRows a
      (db.rows.filter
        (matchesListFilters a.date_from a.date_to a.category
          a.min_amount a.max_amount a.text))))

/-! ### Mutation service -/

/-- `services.add_expense`: inserts the new row and returns
`cursor.lastrowid`, the freshly assigned AUTOINCREMENT id. -/
def add_expense (db : DB) (date category : String) (amount : ℚ)
    (note : Option String) : Nat × DB :=
  (db.nextId, ⟨db.rows ++ [⟨db.nextId, date, category, amount, note⟩],
               db.nextId + 1⟩)

/-- The `updates` fragment list built by `services.update_expense`
(`src/services.py` lines 154-172): one `field=?` fragment per provided
field. -/
def updateFields (date category : Option String) (amount : Option ℚ)
    (note : Option String) : List String :=
  (match date with | some _ => ["date=?"] | none => []) ++
  (match category with | some _ => ["category=?"] | none => []) ++
  (match amount with | some _ => ["amount=?"] | none => []) ++
  (match note with | some _ => ["note=?"] | none => [])

/-- The effect of `UPDATE expenses SET {fields} WHERE id=?` on one stored
row: each provided field is overwritten, the others kept. -/
def applyUpdate (date category : Option String) (amount : Option ℚ)
    (note : Option String) (r : Row) : Row :=
  ⟨r.id, date.getD r.date, category.getD r.category, amount.getD r.amount,
   match note with | some n => some n | none => r.note⟩

/-- `services.update_expense`: with an empty `updates` list the Python code
returns 0 before touching the database; otherwise it executes the UPDATE and
returns `cursor.rowcount`, the number of rows whose `id` matched. -/
def update_expense (db : DB) (expense_id : Nat) (date category : Option String)
    (amount : Option ℚ) (note : Option String) : Nat × DB :=
  if updateFields date category amount note = [] then (0, db)
  else
    ((db.rows.filter (fun r => r.id == expense_id)).length,
     ⟨db.rows.map (fun r =>
        if r.id == expense_id then applyUpdate date category amount note r
        else r),
      db.nextId⟩)

/-- `services.delete_expense`: executes `DELETE FROM expenses WHERE id=?` and
returns `cursor.rowcount`, the number of removed rows. -/
def delete_expense (db : DB) (expense_id : Nat) : Nat × DB :=
  ((db.rows.filter (fun r => r.id == expense_id)).length,
   ⟨db.rows.filter (fun r => !(r.id == expense_id)), db.nextId⟩)

/-! ### Aggregation service: `reports.by_category` and
`reports.range_summary` -/

/-- `SUM(amount)` over the rows of one category group. -/
def catTotal (rows : List Row) (c : String) : ℚ :=
  ((rows.filter (fun r => r.category == c)).map Row.amount).sum

/-- `COUNT(*)` over the rows of one category group. -/
def catCount (rows : List Row) (c : String) : Nat :=
  (rows.filter (fun r => r.category == c)).length

/-- One fetched row of the grouped SELECT in `by_category`. -/
structure CatGroup where
  category : String
  total : ℚ
  count : Nat
deriving DecidableEq

/-- One aggregate of the final `by_category` result, with the percentage of
the grand total. -/
structure CatAgg where
  category : String
  total : ℚ
  count : Nat
  pct_total : ℚ
deriving DecidableEq

/-- The meaning of `GROUP BY category` on the matching rows: one group per
distinct category, carrying that category's sum and count. -/
def groupByCategory (rows : List Row) : List CatGroup :=
  ((rows.map Row.category).dedup).map
    (fun c => ⟨c, catTotal rows c, catCount rows c⟩)

/-- `reports.by_category`: groups the matching rows by category ordered by
descending total, returns `[]` when nothing matched (`if not rows`) or when
the grand total — summed over the fetched groups — is zero, and otherwise
attaches `pct_total = (total / total_global) * 100` to every group. -/
def by_category (db : DB) (date_from date_to : Option String)
    (min_amount max_amount : Option ℚ) (text : Option String) : List CatAgg :=
  let matching := db.rows.filter
    (matchesCatFilters date_from date_to min_amount max_amount text)
  let groups := (groupByCategory matching).insertionSort
    (fun g h => h.total ≤ g.total)
  if groups = [] then []
  else
    let total_global := (groups.map CatGroup.total).sum
    if total_global = 0 then []
    else groups.map (fun g =>
      ⟨g.category, g.total, g.count, g.total / total_global * 100⟩)

/-- The fetched aggregate of `range_summary`; SQLite `AVG(amount)` is
`SUM(amount) / COUNT(*)`, exact here over ℚ. -/
structure RangeRes where
  total : ℚ
  count : Nat
  avg : ℚ
deriving DecidableEq

/-- `reports.range_summary`: one aggregate SELECT over the rows matched by
`where_builder_range`; returns `None` when the matching count is zero,
otherwise the total, count and mean. -/
def range_summary (db : DB) (date_from date_to : Option String)
    (min_amount max_amount : Option ℚ) (text : Option String) :
    Option RangeRes :=
  let matching := db.rows.filter
    (matchesRangeFilters date_from date_to min_amount max_amount text)
  if matching.length = 0 then none
  else
    some ⟨(matching.map Row.amount).sum, matching.length,
          (matching.map Row.amount).sum / (matching.length : ℚ)⟩

/-! ### Per-filter description of the clause builders (the spec's reading:
one fragment per present filter, in source order) -/

/-- One clause fragment when the filter is present, none when absent. -/
def fragOf {α : Type} (o : Option α) (s : String) : List String :=
  match o with | some _ => [s] | none => []

/-- One string bind value when the filter is present. -/
def bindStr (o : Option String) : List Param :=
  match o with | some v => [Param.str v] | none => []

/-- One numeric bind value when the filter is present. -/
def bindNum (o : Option ℚ) : List Param :=
  match o with | some v => [Param.num v] | none => []

/-- The text filter's fragment: present and non-empty text contributes the
single combined `note`/`category` LIKE fragment. -/
def textFrag (t : Option String) : List String :=
  match t with
  | some v => if v = "" then [] else ["(note LIKE ? OR category LIKE ?)"]
  | none => []

/-- The text filter's bind values: two values, both the same
wildcard-wrapped string. -/
def textBinds (t : Option String) : List Param :=
  match t with
  | some v =>
      if v = "" then []
      else [Param.str (likePat v), Param.str (likePat v)]
  | none => []

lemma textStep_eq (s : List String × List Param) (t : Option String) :
    (match t with
     | some v =>
         if v = "" then s
         else (s.1 ++ ["(note LIKE ? OR category LIKE ?)"],
               s.2 ++ [Param.str (likePat v), Param.str (likePat v)])
     | none => s) = (s.1 ++ textFrag t, s.2 ++ textBinds t) := by
  rcases t with _ | tv
  · simp [textFrag, textBinds]
  · by_cases htv : tv = "" <;> simp [textFrag, textBinds, htv]

lemma listExpensesWhere_eq (df dt c : Option String) (mn mx : Option ℚ)
    (t : Option String) :
    listExpensesWhere df dt c mn mx t =
      (fragOf df "date >= ?" ++ fragOf dt "date <= ?" ++
         fragOf c "category = ?" ++ fragOf mn "amount >= ?" ++
         fragOf mx "amount <= ?" ++ textFrag t,
       bindStr df ++ bindStr dt ++ bindStr c ++ bindNum mn ++ bindNum mx ++
         textBinds t) := by
  unfold listExpensesWhere
  rw [textStep_eq]
  cases df <;> cases dt <;> cases c <;> cases mn <;> cases mx <;>
    simp [fragOf, bindStr, bindNum]

lemma where_builder_category_eq (df dt : Option String) (mn mx : Option ℚ)
    (t : Option String) :
    where_builder_category df dt mn mx t =
      (fragOf df "date >= ?" ++ fragOf dt "date <= ?" ++
         fragOf mn "amount >= ?" ++ fragOf mx "amount <= ?" ++ textFrag t,
       bindStr df ++ bindStr dt ++ bindNum mn ++ bindNum mx ++
         textBinds t) := by
  unfold where_builder_category
  rw [textStep_eq]
  cases df <;> cases dt <;> cases mn <;> cases mx <;>
    simp [fragOf, bindStr, bindNum]

lemma optGuard_eq_true_iff {α : Type} (o : Option α) (f : α → Bool) :
    optGuard o f = true ↔ ∀ v, o = some v → f v = true := by
  cases o <;> simp [optGuard]

lemma textGuard_eq_true_iff (t : Option String) (r : Row) :
    textGuard t r = true ↔
      ∀ v, t = some v → v ≠ "" →
        ((∃ n, r.note = some n ∧ likeContains v n = true) ∨
          likeContains v r.category = true) := by
  rcases t with _ | tv
  · simp [textGuard]
  · by_cases htv : tv = "" <;>
      rcases hn : r.note with _ | n <;>
      simp [textGuard, noteHas, htv, hn]

lemma matchesListFilters_iff (df dt c : Option String) (mn mx : Option ℚ)
    (t : Option String) (r : Row) :
    matchesListFilters df dt c mn mx t r = true ↔
      ((∀ v, df = some v → strLe v r.date = true) ∧
       (∀ v, dt = some v → strLe r.date v = true) ∧
       (∀ v, c = some v → r.category = v) ∧
       (∀ v, mn = some v → v ≤ r.amount) ∧
       (∀ v, mx = some v → r.amount ≤ v) ∧
       (∀ v, t = some v → v ≠ "" →
          ((∃ n, r.note = some n ∧ likeContains v n = true) ∨
            likeContains v r.category = true))) := by
  unfold matchesListFilters
  simp only [Bool.and_eq_true, optGuard_eq_true_iff, textGuard_eq_true_iff,
    decide_eq_true_eq, beq_iff_eq, and_assoc]

/-- C1: for every subset of the optional filters, both the listing clause
builder and the report builder (which omits category) emit exactly one clause
fragment per present filter in source order and none for an absent filter;
the text filter (present meaning non-empty, Python truthiness) contributes
one fragment and two bind values equal to the same wildcard-wrapped string;
an empty filter set yields no WHERE suffix and its condition matches every
record; and a row satisfies the combined condition exactly when it satisfies
the conjunction of the conditions of the present filters. -/
theorem filter_clause_builder_per_filter (df dt c : Option String)
    (mn mx : Option ℚ) (t : Option String) :
    (listExpensesWhere df dt c mn mx t =
      (fragOf df "date >= ?" ++ fragOf dt "date <= ?" ++
         fragOf c "category = ?" ++ fragOf mn "amount >= ?" ++
         fragOf mx "amount <= ?" ++ textFrag t,
       bindStr df ++ bindStr dt ++ bindStr c ++ bindNum mn ++ bindNum mx ++
         textBinds t)) ∧
    (where_builder_category df dt mn mx t =
      (fragOf df "date >= ?" ++ fragOf dt "date <= ?" ++
         fragOf mn "amount >= ?" ++ fragOf mx "amount <= ?" ++ textFrag t,
       bindStr df ++ bindStr dt ++ bindNum mn ++ bindNum mx ++
         textBinds t)) ∧
    whereSuffix [] = "" ∧
    (∀ r : Row, matchesListFilters none none none none none none r = true) ∧
    (∀ r : Row, matchesListFilters df dt c mn mx t r = true ↔
      ((∀ v, df = some v → strLe v r.date = true) ∧
       (∀ v, dt = some v → strLe r.date v = true) ∧
       (∀ v, c = some v → r.category = v) ∧
       (∀ v, mn = some v → v ≤ r.amount) ∧
       (∀ v, mx = some v → r.amount ≤ v) ∧
       (∀ v, t = some v → v ≠ "" →
          ((∃ n, r.note = some n ∧ likeContains v n = true) ∨
            likeContains v r.category = true)))) :=
  ⟨listExpensesWhere_eq df dt c mn mx t,
   where_builder_category_eq df dt mn mx t,
   rfl,
   fun _ => rfl,
   fun r => matchesListFilters_iff df dt c mn mx t r⟩

/-- Concrete instance of the C1 builder characterization: one date filter
and a text filter emit two fragments, the text one binding the same
wildcard-wrapped string twice. -/
theorem filter_clause_builder_per_filter_witness :
    listExpensesWhere (some "2024-01-01") none none none none (some "cof") =
      (["date >= ?", "(note LIKE ? OR category LIKE ?)"],
       [Param.str "2024-01-01", Param.str "%cof%", Param.str "%cof%"]) := by
  have h := (filter_clause_builder_per_filter
    (some "2024-01-01") none none none none (some "cof")).1
  simpa [fragOf, bindStr, bindNum, textFrag, textBinds, likePat] using h

/-- C5: the range-summary clause builder always emits the single
`date BETWEEN ? AND ?` fragment first, binding both bounds (`NULL` when
unset) rather than two independent inequality fragments, and then appends
the optional amount and text filters by the same per-filter rules as the
general builder. -/
theorem where_builder_range_between (df dt : Option String)
    (mn mx : Option ℚ) (t : Option String) :
    where_builder_range df dt mn mx t =
      ("date BETWEEN ? AND ?" ::
         (fragOf mn "amount >= ?" ++ fragOf mx "amount <= ?" ++ textFrag t),
       optStrParam df :: optStrParam dt ::
         (bindNum mn ++ bindNum mx ++ textBinds t)) := by
  unfold where_builder_range
  rw [textStep_eq]
  cases mn <;> cases mx <;> simp [fragOf, bindNum]

/-- C7: inserting date 2024-01-15, category Food, amount 42.50, note absent
into an empty store and listing with no filters yields exactly one record
with the inserted values and the freshly assigned positive id returned by
`add_expense`. -/
theorem add_then_list_round_trip :
    0 < (add_expense emptyDB "2024-01-15" "Food" (85/2) none).1 ∧
    list_expenses (add_expense emptyDB "2024-01-15" "Food" (85/2) none).2
        noArgs =
      Except.ok [⟨(add_expense emptyDB "2024-01-15" "Food" (85/2) none).1,
                 "2024-01-15", "Food", 85/2, none⟩] :=
  ⟨Nat.one_pos, rfl⟩

/-- C8: for every database state and id, `update_expense` with all four
optional fields absent performs no write and returns 0, raising no error:
the empty `updates` list short-circuits before the UPDATE is built. -/
theorem update_expense_no_fields_noop (db : DB) (i : Nat) :
    update_expense db i none none none none = (0, db) := rfl

/-- C10: for every database state, `range_summary` with both bounds absent
raises no error: the emitted `date BETWEEN NULL AND NULL` condition matches
no row, so the count is zero and the function returns `none`. -/
theorem range_summary_null_bounds_none (db : DB) (mn mx : Option ℚ)
    (t : Option String) :
    range_summary db none none mn mx t = none := by
  have h : db.rows.filter (matchesRangeFilters none none mn mx t) = [] := by
    apply List.filter_eq_nil_iff.mpr
    intro r _
    simp [matchesRangeFilters]
  simp [range_summary, h]

/-- C4: `range_summary` returns `none` exactly when no row matches the date
window and optional filters; otherwise it returns the total, the count and
the arithmetic mean of the matching amounts, never a zero-valued summary
for an empty match. -/
theorem range_summary_absent_iff (db : DB) (df dt : Option String)
    (mn mx : Option ℚ) (t : Option String) :
    (range_summary db df dt mn mx t = none ↔
       db.rows.filter (matchesRangeFilters df dt mn mx t) = []) ∧
    (db.rows.filter (matchesRangeFilters df dt mn mx t) ≠ [] →
       range_summary db df dt mn mx t =
         some ⟨((db.rows.filter
                  (matchesRangeFilters df dt mn mx t)).map Row.amount).sum,
               (db.rows.filter (matchesRangeFilters df dt mn mx t)).length,
               ((db.rows.filter
                  (matchesRangeFilters df dt mn mx t)).map Row.amount).sum /
                 ((db.rows.filter
                    (matchesRangeFilters df dt mn mx t)).length : ℚ)⟩) := by
  constructor
  · unfold range_summary
    by_cases h : (db.rows.filter (matchesRangeFilters df dt mn mx t)).length = 0
    · simp [h, List.length_eq_zero.mp h]
    · simp only [h, if_false]
      constructor
      · intro hc
        exact absurd hc (by simp)
      · intro hc
        exact absurd (congrArg List.length hc) h
  · intro hne
    have h : ¬ (db.rows.filter (matchesRangeFilters df dt mn mx t)).length = 0 :=
      fun h0 => hne (List.length_eq_zero.mp h0)
    unfold range_summary
    simp only [h, if_false]

/-- The database used to instantiate the universally quantified theorems:
one Food expense of 10 on 2024-01-01, next id 2. -/
def dbW : DB := ⟨[⟨1, "2024-01-01", "Food", 10, none⟩], 2⟩

/-- Concrete instance of C4: one row in the window gives total 10, count 1,
mean 10. -/
theorem range_summary_absent_iff_witness :
    range_summary dbW (some "2024-01-01") (some "2024-12-31") none none
        none = some ⟨10, 1, 10⟩ := by
  have h := (range_summary_absent_iff dbW (some "2024-01-01")
    (some "2024-12-31") none none none).2 (by decide)
  simpa [dbW, matchesRangeFilters, optGuard, textGuard, strLe, listLeChars]
    using h

lemma filter_id_eq_nil (l : List Row) (i : Nat)
    (hne : ¬ ∃ r ∈ l, r.id = i) :
    l.filter (fun r => r.id == i) = [] := by
  apply List.filter_eq_nil_iff.mpr
  intro r hr
  simp only [beq_iff_eq]
  exact fun h => hne ⟨r, hr, h⟩

lemma count_id_one (l : List Row) (i : Nat)
    (hnd : (l.map Row.id).Nodup) (hex : ∃ r ∈ l, r.id = i) :
    (l.filter (fun r => r.id == i)).length = 1 := by
  induction l with
  | nil => simp at hex
  | cons a l ih =>
      rw [List.map_cons, List.nodup_cons] at hnd
      obtain ⟨ha, hl⟩ := hnd
      by_cases hai : a.id = i
      · have hnil : l.filter (fun r => r.id == i) = [] := by
          apply List.filter_eq_nil_iff.mpr
          intro r hr
          simp only [beq_iff_eq]
          intro hri
          apply ha
          rw [hai, ← hri]
          exact List.mem_map_of_mem Row.id hr
        simp [List.filter_cons, hai, hnil]
      · have hex' : ∃ r ∈ l, r.id = i := by
          obtain ⟨r, hr, hri⟩ := hex
          rcases List.mem_cons.mp hr with rfl | hr'
          · exact absurd hri hai
          · exact ⟨r, hr', hri⟩
        simp [List.filter_cons, hai, ih hl hex']

/-- C9: with unique stored ids, `delete_expense` returns 1 and removes
exactly the row with the given id when it exists, and returns 0 leaving the
state unchanged when it does not; deleting a nonexistent id twice returns 0
both times with no side effect and no error. -/
theorem delete_expense_spec (db : DB) (i : Nat)
    (hnd : (db.rows.map Row.id).Nodup) :
    ((∃ r ∈ db.rows, r.id = i) →
        delete_expense db i =
          (1, ⟨db.rows.filter (fun r => !(r.id == i)), db.nextId⟩)) ∧
    ((¬ ∃ r ∈ db.rows, r.id = i) →
        delete_expense db i = (0, db) ∧
        delete_expense (delete_expense db i).2 i = (0, db)) := by
  constructor
  · intro hex
    unfold delete_expense
    rw [count_id_one db.rows i hnd hex]
  · intro hne
    have h0 := filter_id_eq_nil db.rows i hne
    have h1 : db.rows.filter (fun r => !(r.id == i)) = db.rows := by
      apply List.filter_eq_self.mpr
      intro r hr
      simp only [Bool.not_eq_true', beq_eq_false_iff_ne]
      exact fun h => hne ⟨r, hr, h⟩
    have hdel : delete_expense db i = (0, db) := by
      unfold delete_expense
      rw [h0, h1]
      rfl
    refine ⟨hdel, ?_⟩
    rw [hdel]
    exact hdel

/-- Concrete instance of C9: deleting the nonexistent id 5 twice returns 0
both times and leaves the store unchanged. -/
theorem delete_expense_spec_witness :
    delete_expense dbW 5 = (0, dbW) ∧
    delete_expense (delete_expense dbW 5).2 5 = (0, dbW) :=
  (delete_expense_spec dbW 5 (by decide)).2 (by decide)

lemma sum_amount_filter_split (p : Row → Bool) (l : List Row) :
    ((l.filter p).map Row.amount).sum +
      ((l.filter (fun r => !(p r))).map Row.amount).sum =
    (l.map Row.amount).sum := by
  induction l with
  | nil => simp
  | cons a l ih =>
      by_cases hp : p a <;>
        simp [List.filter_cons, hp, ← ih] <;> ring

lemma filter_cat_of_ne (l : List Row) (c c' : String) (hcc : c' ≠ c) :
    (l.filter (fun r => !(r.category == c))).filter
        (fun r => r.category == c') =
      l.filter (fun r => r.category == c') := by
  rw [List.filter_filter]
  apply List.filter_congr
  intro r _
  by_cases h : r.category = c'
  · simp [h, hcc]
  · simp [h]

lemma catTotal_filter_ne (l : List Row) (c c' : String) (hcc : c' ≠ c) :
    catTotal (l.filter (fun r => !(r.category == c))) c' = catTotal l c' := by
  unfold catTotal
  rw [filter_cat_of_ne l c c' hcc]

lemma sum_map_catTotal (cats : List String) :
    ∀ l : List Row, cats.Nodup → (∀ r ∈ l, r.category ∈ cats) →
      (cats.map (catTotal l)).sum = (l.map Row.amount).sum := by
  induction cats with
  | nil =>
      intro l _ hcov
      have hl : l = [] :=
        List.eq_nil_iff_forall_not_mem.mpr
          (fun r hr => absurd (hcov r hr) (List.not_mem_nil _))
      simp [hl]
  | cons c cs ih =>
      intro l hnd hcov
      rw [List.nodup_cons] at hnd
      obtain ⟨hc, hcs⟩ := hnd
      have hcongr : cs.map (catTotal l) =
          cs.map (catTotal (l.filter (fun r => !(r.category == c)))) := by
        apply List.map_congr_left
        intro c' hc'
        exact (catTotal_filter_ne l c c' (fun h => hc (h ▸ hc'))).symm
      have hcov' : ∀ r ∈ l.filter (fun r => !(r.category == c)),
          r.category ∈ cs := by
        intro r hr
        obtain ⟨hrl, hrc⟩ := List.mem_filter.mp hr
        rcases List.mem_cons.mp (hcov r hrl) with h | h
        · simp [h] at hrc
        · exact h
      calc ((c :: cs).map (catTotal l)).sum
          = catTotal l c + (cs.map (catTotal l)).sum := by simp
        _ = catTotal l c +
              ((l.filter (fun r => !(r.category == c))).map Row.amount).sum := by
              rw [hcongr, ih _ hcs hcov']
        _ = (l.map Row.amount).sum := by
              rw [← sum_amount_filter_split (fun r => r.category == c) l]
              rfl

lemma sum_groupTotals (l : List Row) :
    ((groupByCategory l).map CatGroup.total).sum = (l.map Row.amount).sum := by
  unfold groupByCategory
  rw [List.map_map]
  have hcomp : (CatGroup.total ∘ fun c =>
      (⟨c, catTotal l c, catCount l c⟩ : CatGroup)) = catTotal l := rfl
  rw [hcomp]
  apply sum_map_catTotal _ l (List.nodup_dedup _)
  intro r hr
  exact List.mem_dedup.mpr (List.mem_map_of_mem Row.category hr)

lemma groupByCategory_eq_nil_iff (l : List Row) :
    groupByCategory l = [] ↔ l = [] := by
  unfold groupByCategory
  simp

lemma sum_map_div_mul (l : List CatGroup) (G c : ℚ) :
    (l.map (fun g => g.total / G * c)).sum =
      (l.map CatGroup.total).sum / G * c := by
  induction l with
  | nil => simp
  | cons a l ih =>
      simp only [List.map_cons, List.sum_cons, ih]
      ring

lemma groupByCategory_cats (l : List Row) :
    (groupByCategory l).map CatGroup.category = (l.map Row.category).dedup := by
  unfold groupByCategory
  rw [List.map_map]
  have hcomp : (CatGroup.category ∘ fun c =>
      (⟨c, catTotal l c, catCount l c⟩ : CatGroup)) = id := rfl
  rw [hcomp, List.map_id]

lemma by_category_nil_iff (db : DB) (df dt : Option String)
    (mn mx : Option ℚ) (t : Option String) :
    by_category db df dt mn mx t = [] ↔
      (db.rows.filter (matchesCatFilters df dt mn mx t) = [] ∨
       ((db.rows.filter
          (matchesCatFilters df dt mn mx t)).map Row.amount).sum = 0) := by
  simp only [by_category]
  set M := db.rows.filter (matchesCatFilters df dt mn mx t) with hM
  set gs := (groupByCategory M).insertionSort (fun g h => h.total ≤ g.total)
    with hgs
  have hperm : List.Perm gs (groupByCategory M) :=
    List.perm_insertionSort _ _
  have hsumeq : (gs.map CatGroup.total).sum = (M.map Row.amount).sum :=
    (hperm.map CatGroup.total).sum_eq.trans (sum_groupTotals M)
  have hnilgs : gs = [] ↔ M = [] := by
    rw [← groupByCategory_eq_nil_iff M, ← List.length_eq_zero,
      ← List.length_eq_zero, hperm.length_eq]
  by_cases h1 : gs = []
  · simp [h1, hnilgs.mp h1]
  · by_cases h2 : (gs.map CatGroup.total).sum = 0
    · simp only [h1, if_false, h2, if_true, if_pos]
      constructor
      · intro _
        right
        rw [← hsumeq]
        exact h2
      · intro _
        trivial
    · simp only [h1, h2, if_false]
      constructor
      · intro hc
        exact absurd (List.map_eq_nil_iff.mp hc) h1
      · intro hc
        rcases hc with hc | hc
        · exact absurd (hnilgs.mpr hc) h1
        · exact absurd (hsumeq.trans hc) h2

lemma by_category_nonempty_eq (db : DB) (df dt : Option String)
    (mn mx : Option ℚ) (t : Option String)
    (hne : by_category db df dt mn mx t ≠ []) :
    ∃ gs : List CatGroup,
      List.Perm gs
        (groupByCategory (db.rows.filter (matchesCatFilters df dt mn mx t))) ∧
      (gs.map CatGroup.total).sum =
        ((db.rows.filter
           (matchesCatFilters df dt mn mx t)).map Row.amount).sum ∧
      (gs.map CatGroup.total).sum ≠ 0 ∧
      by_category db df dt mn mx t =
        gs.map (fun g => ⟨g.category, g.total, g.count,
          g.total / (gs.map CatGroup.total).sum * 100⟩) := by
  simp only [by_category] at hne ⊢
  set M := db.rows.filter (matchesCatFilters df dt mn mx t) with hM
  set gs := (groupByCategory M).insertionSort (fun g h => h.total ≤ g.total)
    with hgs
  have hperm : List.Perm gs (groupByCategory M) :=
    List.perm_insertionSort _ _
  have hsumeq : (gs.map CatGroup.total).sum = (M.map Row.amount).sum :=
    (hperm.map CatGroup.total).sum_eq.trans (sum_groupTotals M)
  by_cases h1 : gs = []
  · exact absurd (by simp [h1]) hne
  · by_cases h2 : (gs.map CatGroup.total).sum = 0
    · exact absurd (by simp [h1, h2]) hne
    · refine ⟨gs, hperm, hsumeq, h2, ?_⟩
      simp only [h1, h2, if_false]

/-- C2: whenever `by_category` returns a non-empty result, every returned
group's `pct_total` equals 100 times the group's total divided by the grand
total of all matching amounts, and the percentages sum to exactly 100 (the
model computes in exact rationals, so the floating-point tolerance of the
claim is met exactly). -/
theorem by_category_pct_sum (db : DB) (df dt : Option String)
    (mn mx : Option ℚ) (t : Option String)
    (hne : by_category db df dt mn mx t ≠ []) :
    (∀ g ∈ by_category db df dt mn mx t,
       g.pct_total = 100 * g.total /
         ((db.rows.filter
            (matchesCatFilters df dt mn mx t)).map Row.amount).sum) ∧
    ((by_category db df dt mn mx t).map CatAgg.pct_total).sum = 100 := by
  obtain ⟨gs, hperm, hsum, hG, heq⟩ :=
    by_category_nonempty_eq db df dt mn mx t hne
  constructor
  · rw [heq]
    intro g hg
    obtain ⟨g', _, rfl⟩ := List.mem_map.mp hg
    rw [← hsum]
    ring
  · rw [heq, List.map_map]
    have hcomp : (CatAgg.pct_total ∘ fun (g : CatGroup) =>
        (⟨g.category, g.total, g.count,
          g.total / (gs.map CatGroup.total).sum * 100⟩ : CatAgg)) =
        fun (g : CatGroup) =>
          g.total / (gs.map CatGroup.total).sum * 100 := rfl
    rw [hcomp, sum_map_div_mul, div_self hG, one_mul]

/-- Concrete instance of C2: a store with one Food row of amount 10 yields
one aggregate whose percentage is 100, summing to 100. -/
theorem by_category_pct_sum_witness :
    (∀ g ∈ by_category dbW none none none none none,
       g.pct_total = 100 * g.total /
         ((dbW.rows.filter
            (matchesCatFilters none none none none none)).map Row.amount).sum) ∧
    ((by_category dbW none none none none none).map CatAgg.pct_total).sum =
      100 :=
  by_category_pct_sum dbW none none none none none
    (by simp [by_category, groupByCategory, matchesCatFilters,
      matchesListFilters, optGuard, textGuard, catTotal, catCount, dbW])

/-- C3: `by_category` returns the empty sequence exactly when no row matches
or the grand total of matching amounts is zero; otherwise it returns one
aggregate per distinct matching category carrying that category's sum and
count (so the percentage denominator is never zero). -/
theorem by_category_empty_iff (db : DB) (df dt : Option String)
    (mn mx : Option ℚ) (t : Option String) :
    (by_category db df dt mn mx t = [] ↔
      (db.rows.filter (matchesCatFilters df dt mn mx t) = [] ∨
       ((db.rows.filter
          (matchesCatFilters df dt mn mx t)).map Row.amount).sum = 0)) ∧
    (∀ g ∈ by_category db df dt mn mx t,
       g.total = catTotal
         (db.rows.filter (matchesCatFilters df dt mn mx t)) g.category ∧
       g.count = catCount
         (db.rows.filter (matchesCatFilters df dt mn mx t)) g.category) ∧
    ((by_category db df dt mn mx t).map CatAgg.category).Nodup ∧
    (by_category db df dt mn mx t ≠ [] →
      ∀ c, c ∈ (by_category db df dt mn mx t).map CatAgg.category ↔
        c ∈ (db.rows.filter (matchesCatFilters df dt mn mx t)).map
              Row.category) := by
  refine ⟨by_category_nil_iff db df dt mn mx t, ?_, ?_, ?_⟩
  · by_cases hne : by_category db df dt mn mx t = []
    · simp [hne]
    · obtain ⟨gs, hperm, hsum, hG, heq⟩ :=
        by_category_nonempty_eq db df dt mn mx t hne
      rw [heq]
      intro g hg
      obtain ⟨g', hg', rfl⟩ := List.mem_map.mp hg
      have hmem : g' ∈ groupByCategory
          (db.rows.filter (matchesCatFilters df dt mn mx t)) :=
        hperm.mem_iff.mp hg'
      obtain ⟨c, _, rfl⟩ := List.mem_map.mp hmem
      exact ⟨rfl, rfl⟩
  · by_cases hne : by_category db df dt mn mx t = []
    · simp [hne]
    · obtain ⟨gs, hperm, hsum, hG, heq⟩ :=
        by_category_nonempty_eq db df dt mn mx t hne
      rw [heq, List.map_map]
      have hcomp : (CatAgg.category ∘ fun (g : CatGroup) =>
          (⟨g.category, g.total, g.count,
            g.total / (gs.map CatGroup.total).sum * 100⟩ : CatAgg)) =
          CatGroup.category := rfl
      rw [hcomp]
      refine (hperm.map CatGroup.category).nodup_iff.mpr ?_
      rw [groupByCategory_cats]
      exact List.nodup_dedup _
  · intro hne c
    obtain ⟨gs, hperm, hsum, hG, heq⟩ :=
      by_category_nonempty_eq db df dt mn mx t hne
    rw [heq, List.map_map]
    have hcomp : (CatAgg.category ∘ fun (g : CatGroup) =>
        (⟨g.category, g.total, g.count,
          g.total / (gs.map CatGroup.total).sum * 100⟩ : CatAgg)) =
        CatGroup.category := rfl
    rw [hcomp, (hperm.map CatGroup.category).mem_iff, groupByCategory_cats]
    exact List.mem_dedup

/-- Concrete instance of C3: the single matching category Food appears in
the non-empty result. -/
theorem by_category_empty_iff_witness :
    "Food" ∈ (by_category dbW none none none none none).map
      CatAgg.category := by
  have hne : by_category dbW none none none none none ≠ [] := by
    simp [by_category, groupByCategory, matchesCatFilters,
      matchesListFilters, optGuard, textGuard, catTotal, catCount, dbW]
  exact ((by_category_empty_iff dbW none none none none none).2.2.2 hne
    "Food").mpr (by simp [dbW, matchesCatFilters, matchesListFilters,
      optGuard, textGuard])

lemma listLeChars_total : ∀ a b : List Char,
    listLeChars a b = true ∨ listLeChars b a = true
  | [], _ => Or.inl rfl
  | _ :: _, [] => Or.inr rfl
  | a :: as, b :: bs => by
      by_cases hab : a = b
      · subst hab
        simpa [listLeChars] using listLeChars_total as bs
      · simp [listLeChars, hab, Ne.symm hab]

lemma listLeChars_trans : ∀ a b c : List Char,
    listLeChars a b = true → listLeChars b c = true → listLeChars a c = true
  | [], _, _ => by intro _ _; rfl
  | _ :: _, [], _ => by intro h _; simp [listLeChars] at h
  | _ :: _, _ :: _, [] => by intro _ h; simp [listLeChars] at h
  | a :: as, b :: bs, c :: cs => by
      intro h1 h2
      by_cases hab : a = b
      · subst hab
        by_cases hac : a = c
        · subst hac
          simp [listLeChars] at h1 h2 ⊢
          exact listLeChars_trans as bs cs h1 h2
        · simp [listLeChars, hac] at h2 ⊢
          exact h2
      · simp [listLeChars, hab] at h1
        by_cases hbc : b = c
        · subst hbc
          simp [listLeChars, hab]
          exact h1
        · simp [listLeChars, hbc] at h2
          have hac : a < c := lt_trans h1 h2
          simp [listLeChars, ne_of_lt hac, hac]

lemma strLe_total (a b : String) : strLe a b = true ∨ strLe b a = true :=
  listLeChars_total _ _

lemma strLe_trans (a b c : String) :
    strLe a b = true → strLe b c = true → strLe a c = true :=
  listLeChars_trans _ _ _

lemma cmpKeyB_total (k : String) (r s : Row) :
    cmpKeyB k r s = true ∨ cmpKeyB k s r = true := by
  unfold cmpKeyB
  split_ifs
  · simpa using le_total r.amount s.amount
  · exact strLe_total r.date s.date
  · exact strLe_total r.category s.category
  · simpa using le_total r.id s.id

lemma cmpKeyB_trans (k : String) (r s u : Row) :
    cmpKeyB k r s = true → cmpKeyB k s u = true → cmpKeyB k r u = true := by
  unfold cmpKeyB
  split_ifs <;> intro h1 h2
  · simp only [decide_eq_true_eq] at h1 h2 ⊢
    exact le_trans h1 h2
  · exact strLe_trans _ _ _ h1 h2
  · exact strLe_trans _ _ _ h1 h2
  · simp only [decide_eq_true_eq] at h1 h2 ⊢
    exact le_trans h1 h2

lemma cmpB_total (k : String) (d : Bool) (r s : Row) :
    cmpB k d r s = true ∨ cmpB k d s r = true := by
  cases d
  · simpa [cmpB] using cmpKeyB_total k r s
  · simpa [cmpB] using cmpKeyB_total k s r

lemma cmpB_trans (k : String) (d : Bool) (r s u : Row) :
    cmpB k d r s = true → cmpB k d s u = true → cmpB k d r u = true := by
  cases d
  · intro h1 h2
    simp only [cmpB, if_false] at h1 h2 ⊢
    exact cmpKeyB_trans k r s u h1 h2
  · intro h1 h2
    simp only [cmpB, if_true] at h1 h2 ⊢
    exact cmpKeyB_trans k u s r h2 h1

lemma orderRows_sorted (a : ListArgs) (k : String) (hk : a.order_by = some k)
    (hk' : ¬ k = "") (rows : List Row) :
    (orderRows a rows).Sorted (fun r s => cmpB k a.desc r s = true) := by
  simp only [orderRows, hk]
  rw [if_neg hk']
  haveI : IsTotal Row (fun r s => cmpB k a.desc r s = true) :=
    ⟨cmpB_total k a.desc⟩
  haveI : IsTrans Row (fun r s => cmpB k a.desc r s = true) :=
    ⟨fun r s u => cmpB_trans k a.desc r s u⟩
  exact List.sorted_insertionSort _ _

lemma paginate_sorted {rel : Row → Row → Prop} (limit offset : Option Int)
    (rows : List Row) (h : rows.Sorted rel) :
    (paginate limit offset rows).Sorted rel := by
  unfold paginate
  cases limit with
  | none => exact h
  | some l =>
      cases offset with
      | none => exact List.Pairwise.sublist (List.take_sublist _ _) h
      | some o =>
          exact List.Pairwise.sublist
            ((List.take_sublist _ _).trans (List.drop_sublist _ _)) h

lemma orderByBad_iff (o : Option String) :
    orderByBad o = true ↔ ∃ k, o = some k ∧ k ≠ "" ∧ k ∉ VALID_ORDER_BY := by
  cases o <;> simp [orderByBad]

lemma limitBad_iff (l : Option Int) :
    limitBad l = true ↔ ∃ v, l = some v ∧ v ≤ 0 := by
  cases l <;> simp [limitBad]

lemma offsetBad_iff (l o : Option Int) :
    offsetBad l o = true ↔
      l.isSome = true ∧ ∃ v, o = some v ∧ v < 0 := by
  cases l <;> cases o <;> simp [offsetBad]

/-- C6 counterexample: contrary to the claim, `list_expenses` raises no
error for a negative `offset` when `limit` is absent (the offset check sits
inside the `if limit is not None` block and the offset is silently ignored),
and likewise raises no error for the empty-string `order_by`, which Python
truthiness treats as absent. -/
theorem list_expenses_claimed_validation_false :
    list_expenses emptyDB
        ⟨none, none, none, none, none, none, none, false, none,
         some (-1)⟩ = Except.ok [] ∧
    list_expenses emptyDB
        ⟨none, none, none, none, none, none, some "", false, none,
         none⟩ = Except.ok [] :=
  ⟨rfl, rfl⟩

/-- C6 (amended): `list_expenses` raises `InvalidArgument` exactly when
`order_by` is given non-empty and outside {amount, date, category, id}, or
`limit` is given non-positive, or `limit` is given and `offset` is given
negative — a negative `offset` without a `limit` is neither validated nor
applied, and an empty-string `order_by` is treated as absent.  The error is
raised before any storage interaction (it does not depend on the database
state), and an error-free call with a requested sort key returns rows
ordered by that key, ascending unless descending was requested. -/
theorem list_expenses_validation (db : DB) (a : ListArgs) :
    ((∃ e, list_expenses db a = Except.error e) ↔
      ((∃ k, a.order_by = some k ∧ k ≠ "" ∧ k ∉ VALID_ORDER_BY) ∨
       (∃ v, a.limit = some v ∧ v ≤ 0) ∨
       (a.limit.isSome = true ∧ ∃ v, a.offset = some v ∧ v < 0))) ∧
    (∀ e, list_expenses db a = Except.error e →
       ∀ db' : DB, list_expenses db' a = Except.error e) ∧
    (∀ rows, list_expenses db a = Except.ok rows →
       ∀ k, a.order_by = some k → k ≠ "" →
         rows.Sorted (fun r s => cmpB k a.desc r s = true)) := by
  refine ⟨?_, ?_, ?_⟩
  · rw [← orderByBad_iff, ← limitBad_iff, ← offsetBad_iff]
    by_cases h1 : orderByBad a.order_by = true <;>
      by_cases h2 : limitBad a.limit = true <;>
      by_cases h3 : offsetBad a.limit a.offset = true <;>
      simp [list_expenses, h1, h2, h3]
  · intro e he db'
    by_cases h1 : orderByBad a.order_by = true <;>
      by_cases h2 : limitBad a.limit = true <;>
      by_cases h3 : offsetBad a.limit a.offset = true <;>
      simp [list_expenses, h1, h2, h3] at he ⊢ <;> exact he
  · intro rows hok k hk hk'
    by_cases h1 : orderByBad a.order_by = true <;>
      by_cases h2 : limitBad a.limit = true <;>
      by_cases h3 : offsetBad a.limit a.offset = true <;>
      simp [list_expenses, h1, h2, h3] at hok
    subst hok
    exact paginate_sorted a.limit a.offset _
      (orderRows_sorted a k hk hk' _)

/-- Concrete instance of C6 (amended): `limit = 0` is rejected. -/
theorem list_expenses_validation_witness :
    ∃ e, list_expenses dbW
        ⟨none, none, none, none, none, none, none, false, some 0,
         none⟩ = Except.error e :=
  (list_expenses_validation dbW
    ⟨none, none, none, none, none, none, none, false, some 0, none⟩).1.mpr
    (Or.inr (Or.inl ⟨0, rfl, le_refl 0⟩))

end ExpenseTracker
